import Mathlib

/-!
Verification of the resource-management core of CNA/android_frameworks_base:
the shared-resource lifecycle registry (`libs/hwui/ResourceCache.cpp`) and the
byte-budgeted LRU layer pool (`libs/hwui/LayerCache.h` together with the
generic bounded recency cache it is built on).

The C++ data structures are shallowly embedded: the `KeyedVector<void*,
ResourceReference*>` registry becomes an association list keyed by a `Nat`
standing for the resource address, and every externally visible side effect
(texture-cache removal, gradient-cache removal, freeing a resource, clearing
pixel storage) is recorded in an explicit event trace instead of being
performed.
-/

namespace HwuiModel

/-- The `ResourceType` enumeration of `ResourceCache.h`:
`kBitmap`, `kMatrix`, `kPaint`, `kShader`
(spec names: PixelImage, TransformMatrix, PaintStyle, ShaderProgram). -/
inductive ResourceType where
  | kBitmap
  | kMatrix
  | kPaint
  | kShader
deriving DecidableEq, Repr

/-- The per-resource tracking record `ResourceReference` of `ResourceCache.h`:
a resource type, a signed reference count and the two one-way request flags
(`recycled`, `destroyed`).  `refCount` is modelled as `Int`, mirroring the
C++ `int` field, so that the absence of negative counts is a theorem rather
than a modelling artifact. -/
structure ResourceReference where
  resourceType : ResourceType
  refCount : Int
  recycled : Bool
  destroyed : Bool
deriving DecidableEq, Repr

/-- Modelled from the spec: the `ResourceReference(ResourceType)` constructor
lives in `ResourceCache.h`, which is not among the provided sources; §4.3 of
the spec states that a fresh entry is created as
`{kind, refCount: 0, recycleRequested: false, destroyRequested: false}`. -/
def ResourceReference.fresh (rt : ResourceType) : ResourceReference :=
  { resourceType := rt, refCount := 0, recycled := false, destroyed := false }

/-- Externally visible side effects of the registry, recorded as a trace:
`texRemove id` is `Caches::getInstance().textureCache.remove(id)`,
`gradRemove id` is `Caches::getInstance().gradientCache.remove(id)`,
`freeResource id` is `delete id`, and
`setPixelsNull id` is `id->setPixels(NULL, NULL)`. -/
inductive REvent where
  | texRemove (id : Nat)
  | gradRemove (id : Nat)
  | freeResource (id : Nat)
  | setPixelsNull (id : Nat)
deriving DecidableEq, Repr

/-- The registry: the `KeyedVector<void*, ResourceReference*>` of
`ResourceCache`, as an association list from resource identities to
tracking records. -/
abbrev Registry := List (Nat × ResourceReference)

/-- Lookup in the registry, the model of
`mCache->indexOfKey(r) >= 0 ? mCache->valueFor(r) : NULL`. -/
def regFind : Registry → Nat → Option ResourceReference
  | [], _ => none
  | p :: t, r => if p.1 = r then some p.2 else regFind t r

/-- In-place mutation of the tracked record for key `r`
(the C++ code mutates the `ResourceReference*` it looked up). -/
def regUpdate (reg : Registry) (r : Nat) (f : ResourceReference → ResourceReference) :
    Registry :=
  reg.map fun p => if p.1 = r then (p.1, f p.2) else p

/-- Removal of the entry for key `r`: `mCache->removeItem(resource)`. -/
def regErase (reg : Registry) (r : Nat) : Registry :=
  reg.filter fun p => p.1 != r

/-- Full state of a `ResourceCache`: the registry, the trace of external
side effects produced so far, and whether `Caches::hasInstance()` holds
(constant throughout a run). -/
structure RState where
  registry : Registry
  events : List REvent
  hasCaches : Bool
deriving DecidableEq, Repr

/-- Append one external side effect to the trace. -/
def RState.emit (s : RState) (e : REvent) : RState :=
  { s with events := s.events ++ [e] }

/-- Lookup of a resource in a state's registry. -/
def RState.find (s : RState) (r : Nat) : Option ResourceReference :=
  regFind s.registry r

/-- Model of `ResourceCache::deleteResourceReference(void*, ResourceReference*)`
(ResourceCache.cpp:184-216): if the record was recycled and is a bitmap,
clear its pixels; if it was destroyed, perform the kind-specific teardown
(texture-cache removal and free for bitmaps, gradient-cache removal and free
for shaders, plain free for matrices and paints); finally remove the entry. -/
def deleteResourceReference (s : RState) (resource : Nat) (ref : ResourceReference) :
    RState :=
  let s1 := if ref.recycled ∧ ref.resourceType = ResourceType.kBitmap then
      s.emit (REvent.setPixelsNull resource)
    else s
  let s2 :=
    if ref.destroyed then
      match ref.resourceType with
      | ResourceType.kBitmap =>
          ((if s1.hasCaches then s1.emit (REvent.texRemove resource) else s1).emit
            (REvent.freeResource resource))
      | ResourceType.kMatrix => s1.emit (REvent.freeResource resource)
      | ResourceType.kPaint => s1.emit (REvent.freeResource resource)
      | ResourceType.kShader =>
          ((if s1.hasCaches then s1.emit (REvent.gradRemove resource) else s1).emit
            (REvent.freeResource resource))
    else s1
  { s2 with registry := regErase s2.registry resource }

/-- Model of `ResourceCache::incrementRefcount(void*, ResourceType)`
(ResourceCache.cpp:47-57): create a fresh zero-count record if the resource
is untracked, then increment its reference count. -/
def incrementRefcount (s : RState) (resource : Nat) (rt : ResourceType) : RState :=
  let reg :=
    match regFind s.registry resource with
    | some _ => s.registry
    | none => (resource, ResourceReference.fresh rt) :: s.registry
  { s with registry := regUpdate reg resource fun ref => { ref with refCount := ref.refCount + 1 } }

/-- Model of `ResourceCache::decrementRefcount(void*)` (ResourceCache.cpp:78-88):
no-op if untracked; otherwise decrement the count and, if it reached zero,
delete the resource reference. -/
def decrementRefcount (s : RState) (resource : Nat) : RState :=
  match regFind s.registry resource with
  | none => s
  | some ref =>
      let ref' := { ref with refCount := ref.refCount - 1 }
      let s' := { s with
        registry := regUpdate s.registry resource fun q => { q with refCount := q.refCount - 1 } }
      if ref'.refCount = 0 then deleteResourceReference s' resource ref' else s'

/-- Model of `ResourceCache::recycle(void*)` (ResourceCache.cpp:110-120): no-op if
untracked; otherwise set the recycled flag and, if the count is zero, delete
the resource reference. -/
def recycleGeneric (s : RState) (resource : Nat) : RState :=
  match regFind s.registry resource with
  | none => s
  | some ref =>
      let ref' := { ref with recycled := true }
      let s' := { s with
        registry := regUpdate s.registry resource fun q => { q with recycled := true } }
      if ref'.refCount = 0 then deleteResourceReference s' resource ref' else s'

/-- Model of `ResourceCache::recycle(SkBitmap*)` (ResourceCache.cpp:101-108): if the
bitmap is untracked, recycle its pixel data directly (`setPixels(NULL, NULL)`);
otherwise defer to the generic `recycle(void*)`. -/
def recycleBitmap (s : RState) (resource : Nat) : RState :=
  match regFind s.registry resource with
  | none => s.emit (REvent.setPixelsNull resource)
  | some _ => recycleGeneric s resource

/-- The shared tracked-resource path of the four `ResourceCache::destructor`
overloads: set the destroyed flag and, if the count is zero, delete the
resource reference. -/
def destructorTracked (s : RState) (resource : Nat) (ref : ResourceReference) : RState :=
  let ref' := { ref with destroyed := true }
  let s' := { s with
    registry := regUpdate s.registry resource fun q => { q with destroyed := true } }
  if ref'.refCount = 0 then deleteResourceReference s' resource ref' else s'

/-- Model of `ResourceCache::destructor(SkBitmap*)` (ResourceCache.cpp:122-137):
untracked bitmaps are removed from the texture cache (when it exists) and
deleted immediately; tracked ones take the deferred path. -/
def destructorBitmap (s : RState) (resource : Nat) : RState :=
  match regFind s.registry resource with
  | none =>
      ((if s.hasCaches then s.emit (REvent.texRemove resource) else s).emit
        (REvent.freeResource resource))
  | some ref => destructorTracked s resource ref

/-- Model of `ResourceCache::destructor(SkMatrix*)` (ResourceCache.cpp:139-151):
untracked matrices are deleted immediately; tracked ones take the deferred
path. -/
def destructorMatrix (s : RState) (resource : Nat) : RState :=
  match regFind s.registry resource with
  | none => s.emit (REvent.freeResource resource)
  | some ref => destructorTracked s resource ref

/-- Model of `ResourceCache::destructor(SkPaint*)` (ResourceCache.cpp:153-165):
untracked paints are deleted immediately; tracked ones take the deferred
path. -/
def destructorPaint (s : RState) (resource : Nat) : RState :=
  match regFind s.registry resource with
  | none => s.emit (REvent.freeResource resource)
  | some ref => destructorTracked s resource ref

/-- Model of `ResourceCache::destructor(SkiaShader*)` (ResourceCache.cpp:167-182):
untracked shaders are removed from the gradient cache (when it exists) and
deleted immediately; tracked ones take the deferred path. -/
def destructorShader (s : RState) (resource : Nat) : RState :=
  match regFind s.registry resource with
  | none =>
      ((if s.hasCaches then s.emit (REvent.gradRemove resource) else s).emit
        (REvent.freeResource resource))
  | some ref => destructorTracked s resource ref

/-- The public operations of the registry, used to quantify over all call
sequences. -/
inductive ROp where
  | increment (id : Nat) (rt : ResourceType)
  | decrement (id : Nat)
  | recycleB (id : Nat)
  | recycleG (id : Nat)
  | destroyB (id : Nat)
  | destroyM (id : Nat)
  | destroyP (id : Nat)
  | destroyS (id : Nat)
deriving DecidableEq, Repr

/-- Interpret one public operation. -/
def applyOp (s : RState) : ROp → RState
  | ROp.increment id rt => incrementRefcount s id rt
  | ROp.decrement id => decrementRefcount s id
  | ROp.recycleB id => recycleBitmap s id
  | ROp.recycleG id => recycleGeneric s id
  | ROp.destroyB id => destructorBitmap s id
  | ROp.destroyM id => destructorMatrix s id
  | ROp.destroyP id => destructorPaint s id
  | ROp.destroyS id => destructorShader s id

/-- Run a sequence of public operations. -/
def runOps (s : RState) (ops : List ROp) : RState :=
  ops.foldl applyOp s

/-- The state of a freshly constructed `ResourceCache`: empty registry, no
side effects yet. -/
def initState (hc : Bool) : RState :=
  { registry := [], events := [], hasCaches := hc }

/-- Keys of the registry. -/
def regKeys (reg : Registry) : List Nat :=
  reg.map Prod.fst

/-- Invariant of every reachable registry state: identities are tracked at
most once, and every tracked record has `refCount ≥ 1`. -/
def GoodState (s : RState) : Prop :=
  (regKeys s.registry).Nodup ∧ ∀ p ∈ s.registry, 1 ≤ p.2.refCount

instance (s : RState) : Decidable (GoodState s) := by
  unfold GoodState
  infer_instance

/-- Iterated application of `decrementRefcount` to the same identity. -/
def decIter (s : RState) (r : Nat) : Nat → RState
  | 0 => s
  | n + 1 => decIter (decrementRefcount s r) r n


/-! ### The Bounded Recency Cache (GenerationCache / LayerCache)

Only the header `libs/hwui/LayerCache.h` is among the provided sources; the
bodies of `LayerCache.cpp` and of the generic `GenerationCache` it wraps are
not.  The definitions below are therefore modelled from §4.1 of the spec.
Keys and values are abstracted to the key identity (`Nat`) and the value's
weight (`Nat`), which is all the cache logic inspects. -/


/-- Total weight of a list of (key, weight) entries. -/
def sumWeights (l : List (Nat × Nat)) : Nat :=
  (l.map Prod.snd).sum

/-- Modelled from the spec: state of the Bounded Recency Cache
(`GenerationCache` as used by `LayerCache`, whose `mSize`/`mMaxSize` fields
are declared at LayerCache.h:101-102).  `entries` is ordered by recency,
least-recently-used first; `hooked` records every removal-hook invocation
(`OnEntryRemoved::operator()`) in order. -/
structure BRCache where
  entries : List (Nat × Nat)
  currentWeight : Nat
  maxWeight : Nat
  hooked : List (Nat × Nat)
deriving DecidableEq, Repr

/-- Modelled from the spec (§4.1 `put`): evict least-recently-used entries
until `currentWeight + w ≤ maxWeight`, returning the surviving entries, the
reduced weight, and the evicted entries in eviction order. -/
def evictToFit : List (Nat × Nat) → Nat → Nat → Nat →
    List (Nat × Nat) × Nat × List (Nat × Nat)
  | [], cw, _, _ => ([], cw, [])
  | e :: t, cw, mw, w =>
      if cw + w ≤ mw then (e :: t, cw, [])
      else
        let r := evictToFit t (cw - e.2) mw w
        (r.1, r.2.1, e :: r.2.2)

/-- Modelled from the spec (§4.1 `put`, §4.2 `release`,
LayerCache.h:67-76): reject when the weight alone exceeds the budget,
otherwise evict least-recently-used entries (invoking the removal hook on
each) until the new entry fits, insert it as most-recently-used and accept. -/
def BRCache.put (c : BRCache) (k w : Nat) : BRCache × Bool :=
  if c.maxWeight < w then (c, false)
  else
    let r := evictToFit c.entries c.currentWeight c.maxWeight w
    ({ entries := r.1 ++ [(k, w)], currentWeight := r.2.1 + w,
       maxWeight := c.maxWeight, hooked := c.hooked ++ r.2.2 }, true)

/-- First-match weight lookup among the entries. -/
def lookupWeight : List (Nat × Nat) → Nat → Option Nat
  | [], _ => none
  | e :: t, k => if e.1 = k then some e.2 else lookupWeight t k

/-- Remove the first entry with the given key. -/
def eraseFirst : List (Nat × Nat) → Nat → List (Nat × Nat)
  | [], _ => []
  | e :: t, k => if e.1 = k then t else e :: eraseFirst t k

/-- Modelled from the spec (§4.1 `get`): get-and-take — a present entry is
removed from the cache and handed to the caller, reducing `currentWeight`,
with no removal-hook invocation. -/
def BRCache.get (c : BRCache) (k : Nat) : BRCache × Option Nat :=
  match lookupWeight c.entries k with
  | none => (c, none)
  | some w =>
      ({ c with entries := eraseFirst c.entries k, currentWeight := c.currentWeight - w },
        some w)

/-- Modelled from the spec (§4.1 `remove`): explicit withdrawal by key,
without invoking the removal hook. -/
def BRCache.removeKey (c : BRCache) (k : Nat) : BRCache :=
  match lookupWeight c.entries k with
  | none => c
  | some w =>
      { c with entries := eraseFirst c.entries k, currentWeight := c.currentWeight - w }

/-- Modelled from the spec (§4.1 `clear`): remove all entries, invoking the
removal hook on each, and reset the weight. -/
def BRCache.clear (c : BRCache) : BRCache :=
  { entries := [], currentWeight := 0, maxWeight := c.maxWeight,
    hooked := c.hooked ++ c.entries }

/-- Modelled from the spec (§4.1 `setMaxWeight`): change the budget and, if
it is now exceeded, evict least-recently-used entries until satisfied. -/
def BRCache.setMaxWeight (c : BRCache) (n : Nat) : BRCache :=
  let r := evictToFit c.entries c.currentWeight n 0
  { entries := r.1, currentWeight := r.2.1, maxWeight := n, hooked := c.hooked ++ r.2.2 }

/-- Public operations of the Bounded Recency Cache, to quantify over call
sequences. -/
inductive COp where
  | put (k w : Nat)
  | get (k : Nat)
  | removeKey (k : Nat)
  | clear
  | setMaxWeight (n : Nat)
deriving DecidableEq, Repr

/-- Interpret one cache operation (discarding `put`/`get` results). -/
def applyCOp (c : BRCache) : COp → BRCache
  | COp.put k w => (c.put k w).1
  | COp.get k => (c.get k).1
  | COp.removeKey k => c.removeKey k
  | COp.clear => c.clear
  | COp.setMaxWeight n => c.setMaxWeight n

/-- Run a sequence of cache operations. -/
def runCOps (c : BRCache) (ops : List COp) : BRCache :=
  ops.foldl applyCOp c

/-- A freshly constructed cache with the given budget. -/
def initCache (mw : Nat) : BRCache :=
  { entries := [], currentWeight := 0, maxWeight := mw, hooked := [] }

/-- The cache invariant of spec §3/§8: the recorded weight is the sum of the
entries' weights and never exceeds the budget. -/
def CacheInv (c : BRCache) : Prop :=
  c.currentWeight = sumWeights c.entries ∧ c.currentWeight ≤ c.maxWeight

instance (c : BRCache) : Decidable (CacheInv c) := by
  unfold CacheInv
  infer_instance

end HwuiModel

/-! ### Association-list lemmas for the registry -/

namespace HwuiModel

theorem regFind_update_self (reg : Registry) (r : Nat)
    (f : ResourceReference → ResourceReference) :
    regFind (regUpdate reg r f) r = (regFind reg r).map f := by
  induction reg with
  | nil => rfl
  | cons p t ih =>
      by_cases h : p.1 = r
      · simp [regUpdate, regFind, h]
      · simp [regUpdate, regFind, h] at ih ⊢
        exact ih

theorem regFind_update_ne (reg : Registry) (r r' : Nat)
    (f : ResourceReference → ResourceReference) (h : r' ≠ r) :
    regFind (regUpdate reg r f) r' = regFind reg r' := by
  induction reg with
  | nil => rfl
  | cons p t ih =>
      simp only [regUpdate, List.map_cons] at ih ⊢
      by_cases hp : p.1 = r
      · rw [if_pos hp]
        show (if p.1 = r' then _ else _) = _
        rw [if_neg (by rw [hp]; exact Ne.symm h), regFind, if_neg (by rw [hp]; exact Ne.symm h)]
        exact ih
      · rw [if_neg hp]
        show (if p.1 = r' then _ else _) = _
        by_cases hp' : p.1 = r'
        · rw [if_pos hp', regFind, if_pos hp']
        · rw [if_neg hp', regFind, if_neg hp']
          exact ih

theorem regKeys_update (reg : Registry) (r : Nat)
    (f : ResourceReference → ResourceReference) :
    regKeys (regUpdate reg r f) = regKeys reg := by
  induction reg with
  | nil => rfl
  | cons p t ih =>
      by_cases h : p.1 = r <;> simp [regUpdate, regKeys, h] at ih ⊢ <;> exact ih

theorem regFind_erase_self (reg : Registry) (r : Nat) :
    regFind (regErase reg r) r = none := by
  induction reg with
  | nil => rfl
  | cons p t ih =>
      by_cases h : p.1 = r
      · simpa [regErase, regFind, h] using ih
      · simpa [regErase, regFind, h] using ih

theorem regFind_erase_ne (reg : Registry) (r r' : Nat) (h : r' ≠ r) :
    regFind (regErase reg r) r' = regFind reg r' := by
  induction reg with
  | nil => rfl
  | cons p t ih =>
      by_cases hp : p.1 = r
      · have hp' : p.1 ≠ r' := by rw [hp]; exact Ne.symm h
        rw [regErase, List.filter_cons_of_neg (by simpa using hp), regFind, if_neg hp']
        exact ih
      · rw [regErase, List.filter_cons_of_pos (by simpa using hp), regFind]
        by_cases hp' : p.1 = r'
        · rw [if_pos hp', regFind, if_pos hp']
        · rw [if_neg hp', regFind, if_neg hp']
          exact ih

theorem mem_regUpdate {reg : Registry} {r : Nat}
    {f : ResourceReference → ResourceReference} {q : Nat × ResourceReference}
    (h : q ∈ regUpdate reg r f) :
    (q ∈ reg ∧ q.1 ≠ r) ∨ ∃ p ∈ reg, p.1 = r ∧ q = (p.1, f p.2) := by
  rcases List.mem_map.mp h with ⟨p, hp, hq⟩
  by_cases hr : p.1 = r
  · right
    refine ⟨p, hp, hr, ?_⟩
    rw [← hq, if_pos hr]
  · left
    rw [← hq, if_neg hr]
    exact ⟨hp, hr⟩

theorem mem_regErase {reg : Registry} {r : Nat} {q : Nat × ResourceReference}
    (h : q ∈ regErase reg r) : q ∈ reg ∧ q.1 ≠ r := by
  have := List.mem_filter.mp h
  exact ⟨this.1, by simpa using this.2⟩

theorem regFind_eq_none_iff {reg : Registry} {r : Nat} :
    regFind reg r = none ↔ ∀ p ∈ reg, p.1 ≠ r := by
  induction reg with
  | nil => simp [regFind]
  | cons p t ih =>
      by_cases h : p.1 = r
      · simp [regFind, h]
      · simp [regFind, h, ih]

theorem regFind_mem {reg : Registry} {r : Nat} {v : ResourceReference}
    (h : regFind reg r = some v) : (r, v) ∈ reg := by
  induction reg with
  | nil => simp [regFind] at h
  | cons p t ih =>
      by_cases hp : p.1 = r
      · rw [regFind, if_pos hp] at h
        have hq : (r, v) = p := by
          rw [← hp, ← Option.some_inj.mp h]
        rw [hq]
        exact List.mem_cons_self p t
      · rw [regFind, if_neg hp] at h
        exact List.mem_cons_of_mem _ (ih h)

theorem regKeys_erase_sublist (reg : Registry) (r : Nat) :
    (regKeys (regErase reg r)).Sublist (regKeys reg) :=
  List.Sublist.map _ (List.filter_sublist reg)

end HwuiModel

/-! ### Unfolding lemmas for the registry operations -/

namespace HwuiModel

theorem mk_find (reg : Registry) (ev : List REvent) (hc : Bool) (r : Nat) :
    (RState.mk reg ev hc).find r = regFind reg r := rfl

theorem mk_events (reg : Registry) (ev : List REvent) (hc : Bool) :
    (RState.mk reg ev hc).events = ev := rfl

theorem mk_registry (reg : Registry) (ev : List REvent) (hc : Bool) :
    (RState.mk reg ev hc).registry = reg := rfl

theorem delete_registry (s : RState) (r : Nat) (ref : ResourceReference) :
    (deleteResourceReference s r ref).registry = regErase s.registry r := by
  obtain ⟨rt, rc, rec, des⟩ := ref
  cases rt <;> cases rec <;> cases des <;>
    simp [deleteResourceReference, RState.emit, apply_ite RState.registry]

theorem delete_hasCaches (s : RState) (r : Nat) (ref : ResourceReference) :
    (deleteResourceReference s r ref).hasCaches = s.hasCaches := by
  obtain ⟨rt, rc, rec, des⟩ := ref
  cases rt <;> cases rec <;> cases des <;>
    simp [deleteResourceReference, RState.emit, apply_ite RState.hasCaches]

theorem delete_no_flags (s : RState) (r : Nat) (ref : ResourceReference)
    (h1 : ref.recycled = false) (h2 : ref.destroyed = false) :
    deleteResourceReference s r ref = { s with registry := regErase s.registry r } := by
  simp [deleteResourceReference, h1, h2]

theorem delete_destroyed_bitmap (s : RState) (r : Nat) (ref : ResourceReference)
    (h1 : ref.recycled = false) (h2 : ref.destroyed = true)
    (h3 : ref.resourceType = ResourceType.kBitmap) (hc : s.hasCaches = true) :
    deleteResourceReference s r ref =
      { s with registry := regErase s.registry r,
               events := s.events ++ [REvent.texRemove r, REvent.freeResource r] } := by
  simp [deleteResourceReference, h1, h2, h3, hc, RState.emit]

theorem delete_count_setPixels (s : RState) (r : Nat) (ref : ResourceReference) :
    (deleteResourceReference s r ref).events.count (REvent.setPixelsNull r) =
      s.events.count (REvent.setPixelsNull r) +
        (if ref.recycled = true ∧ ref.resourceType = ResourceType.kBitmap then 1 else 0) := by
  obtain ⟨rt, rc, rec, des⟩ := ref
  cases rt <;> cases rec <;> cases des <;> cases hcs : s.hasCaches <;>
    simp [deleteResourceReference, RState.emit, hcs, List.count_append,
      List.count_singleton, apply_ite RState.events]

theorem increment_tracked {s : RState} {r : Nat} {ref : ResourceReference}
    (h : regFind s.registry r = some ref) (rt : ResourceType) :
    incrementRefcount s r rt =
      { s with registry :=
          regUpdate s.registry r fun q => { q with refCount := q.refCount + 1 } } := by
  simp [incrementRefcount, h]

theorem regUpdate_not_found {reg : Registry} {r : Nat}
    {f : ResourceReference → ResourceReference} (h : ∀ p ∈ reg, p.1 ≠ r) :
    regUpdate reg r f = reg := by
  induction reg with
  | nil => rfl
  | cons p t ih =>
      rw [regUpdate, List.map_cons, if_neg (h p (List.mem_cons_self p t))]
      rw [show List.map _ t = regUpdate t r f from rfl,
        ih fun q hq => h q (List.mem_cons_of_mem p hq)]

theorem increment_untracked {s : RState} {r : Nat}
    (h : regFind s.registry r = none) (rt : ResourceType) :
    incrementRefcount s r rt =
      { s with registry :=
          (r, { resourceType := rt, refCount := 1, recycled := false, destroyed := false }) ::
            s.registry } := by
  have hall := regFind_eq_none_iff.mp h
  simp only [incrementRefcount, h]
  rw [regUpdate, List.map_cons, if_pos rfl,
    show List.map _ s.registry = regUpdate s.registry r
      (fun q => { q with refCount := q.refCount + 1 }) from rfl,
    regUpdate_not_found hall]
  rfl

theorem decrement_untracked {s : RState} {r : Nat} (h : regFind s.registry r = none) :
    decrementRefcount s r = s := by
  simp [decrementRefcount, h]

theorem decrement_tracked_pos {s : RState} {r : Nat} {ref : ResourceReference}
    (h : regFind s.registry r = some ref) (hne : ref.refCount - 1 ≠ 0) :
    decrementRefcount s r =
      { s with registry :=
          regUpdate s.registry r fun q => { q with refCount := q.refCount - 1 } } := by
  simp [decrementRefcount, h, hne]

theorem decrement_tracked_zero {s : RState} {r : Nat} {ref : ResourceReference}
    (h : regFind s.registry r = some ref) (hz : ref.refCount - 1 = 0) :
    decrementRefcount s r =
      deleteResourceReference
        { s with registry :=
            regUpdate s.registry r fun q => { q with refCount := q.refCount - 1 } }
        r { ref with refCount := ref.refCount - 1 } := by
  simp [decrementRefcount, h, hz]

theorem recycle_untracked {s : RState} {r : Nat} (h : regFind s.registry r = none) :
    recycleGeneric s r = s := by
  simp [recycleGeneric, h]

theorem recycle_tracked_pos {s : RState} {r : Nat} {ref : ResourceReference}
    (h : regFind s.registry r = some ref) (hnz : ref.refCount ≠ 0) :
    recycleGeneric s r =
      { s with registry := regUpdate s.registry r fun q => { q with recycled := true } } := by
  simp [recycleGeneric, h, hnz]

theorem recycle_tracked_zero {s : RState} {r : Nat} {ref : ResourceReference}
    (h : regFind s.registry r = some ref) (hz : ref.refCount = 0) :
    recycleGeneric s r =
      deleteResourceReference
        { s with registry := regUpdate s.registry r fun q => { q with recycled := true } }
        r { ref with recycled := true } := by
  simp [recycleGeneric, h, hz]

theorem recycleBitmap_untracked {s : RState} {r : Nat} (h : regFind s.registry r = none) :
    recycleBitmap s r = s.emit (REvent.setPixelsNull r) := by
  simp [recycleBitmap, h]

theorem recycleBitmap_tracked {s : RState} {r : Nat} {ref : ResourceReference}
    (h : regFind s.registry r = some ref) :
    recycleBitmap s r = recycleGeneric s r := by
  simp [recycleBitmap, h]

theorem destructorTracked_pos {s : RState} {r : Nat} {ref : ResourceReference}
    (hnz : ref.refCount ≠ 0) :
    destructorTracked s r ref =
      { s with registry := regUpdate s.registry r fun q => { q with destroyed := true } } := by
  simp [destructorTracked, hnz]

theorem destructorTracked_zero {s : RState} {r : Nat} {ref : ResourceReference}
    (hz : ref.refCount = 0) :
    destructorTracked s r ref =
      deleteResourceReference
        { s with registry := regUpdate s.registry r fun q => { q with destroyed := true } }
        r { ref with destroyed := true } := by
  simp [destructorTracked, hz]

theorem destructorBitmap_untracked {s : RState} {r : Nat}
    (h : regFind s.registry r = none) :
    destructorBitmap s r =
      ((if s.hasCaches then s.emit (REvent.texRemove r) else s).emit
        (REvent.freeResource r)) := by
  simp [destructorBitmap, h]

theorem destructorBitmap_tracked {s : RState} {r : Nat} {ref : ResourceReference}
    (h : regFind s.registry r = some ref) :
    destructorBitmap s r = destructorTracked s r ref := by
  simp [destructorBitmap, h]

theorem destructorMatrix_untracked {s : RState} {r : Nat}
    (h : regFind s.registry r = none) :
    destructorMatrix s r = s.emit (REvent.freeResource r) := by
  simp [destructorMatrix, h]

theorem destructorMatrix_tracked {s : RState} {r : Nat} {ref : ResourceReference}
    (h : regFind s.registry r = some ref) :
    destructorMatrix s r = destructorTracked s r ref := by
  simp [destructorMatrix, h]

theorem destructorPaint_untracked {s : RState} {r : Nat}
    (h : regFind s.registry r = none) :
    destructorPaint s r = s.emit (REvent.freeResource r) := by
  simp [destructorPaint, h]

theorem destructorPaint_tracked {s : RState} {r : Nat} {ref : ResourceReference}
    (h : regFind s.registry r = some ref) :
    destructorPaint s r = destructorTracked s r ref := by
  simp [destructorPaint, h]

theorem destructorShader_untracked {s : RState} {r : Nat}
    (h : regFind s.registry r = none) :
    destructorShader s r =
      ((if s.hasCaches then s.emit (REvent.gradRemove r) else s).emit
        (REvent.freeResource r)) := by
  simp [destructorShader, h]

theorem destructorShader_tracked {s : RState} {r : Nat} {ref : ResourceReference}
    (h : regFind s.registry r = some ref) :
    destructorShader s r = destructorTracked s r ref := by
  simp [destructorShader, h]

end HwuiModel

/-! ### The registry invariant: unique keys and strictly positive counts -/

namespace HwuiModel

theorem nodup_find_eq {reg : Registry} {r : Nat} {v : ResourceReference}
    {p : Nat × ResourceReference} (hn : (regKeys reg).Nodup)
    (hf : regFind reg r = some v) (hp : p ∈ reg) (hr : p.1 = r) : p.2 = v := by
  induction reg with
  | nil => cases hp
  | cons q t ih =>
      have hn' : ¬q.1 ∈ regKeys t ∧ (regKeys t).Nodup := by
        simpa [regKeys, List.nodup_cons] using hn
      rcases List.mem_cons.mp hp with rfl | hpt
      · rw [regFind, if_pos hr] at hf
        exact Option.some_inj.mp hf
      · by_cases hq : q.1 = r
        · exfalso
          apply hn'.1
          rw [hq, ← hr]
          exact List.mem_map.mpr ⟨p, hpt, rfl⟩
        · rw [regFind, if_neg hq] at hf
          exact ih hn'.2 hf hpt

theorem goodState_mem_pos {s : RState} {r : Nat} {ref : ResourceReference}
    (h : GoodState s) (hf : regFind s.registry r = some ref) : 1 ≤ ref.refCount :=
  h.2 (r, ref) (regFind_mem hf)

theorem good_update_of {s : RState} {r : Nat}
    {f : ResourceReference → ResourceReference} (h : GoodState s)
    (hf : ∀ q ∈ s.registry, q.1 = r → 1 ≤ (f q.2).refCount) :
    GoodState { s with registry := regUpdate s.registry r f } := by
  constructor
  · show (regKeys (regUpdate s.registry r f)).Nodup
    rw [regKeys_update]
    exact h.1
  · show ∀ p ∈ regUpdate s.registry r f, 1 ≤ p.2.refCount
    intro p hp
    rcases mem_regUpdate hp with ⟨hp', -⟩ | ⟨q, hq, hqr, rfl⟩
    · exact h.2 p hp'
    · exact hf q hq hqr

theorem good_update_flag {s : RState} {r : Nat}
    {f : ResourceReference → ResourceReference} (h : GoodState s)
    (hf : ∀ q, (f q).refCount = q.refCount) :
    GoodState { s with registry := regUpdate s.registry r f } :=
  good_update_of h fun q hq _ => by rw [hf]; exact h.2 q hq

theorem good_delete_update {s : RState} {r : Nat}
    {f : ResourceReference → ResourceReference} (ref' : ResourceReference)
    (h : GoodState s) :
    GoodState
      (deleteResourceReference { s with registry := regUpdate s.registry r f } r ref') := by
  constructor
  · show (regKeys _).Nodup
    rw [delete_registry]
    exact List.Nodup.sublist (regKeys_erase_sublist _ _)
      (by show (regKeys (regUpdate s.registry r f)).Nodup
          rw [regKeys_update]; exact h.1)
  · intro p hp
    rw [delete_registry] at hp
    obtain ⟨hp1, hp2⟩ := mem_regErase hp
    rcases mem_regUpdate hp1 with ⟨hp', -⟩ | ⟨q, hq, hqr, rfl⟩
    · exact h.2 p hp'
    · exact absurd hqr hp2

theorem good_increment {s : RState} (h : GoodState s) (r : Nat) (rt : ResourceType) :
    GoodState (incrementRefcount s r rt) := by
  cases hf : regFind s.registry r with
  | some ref =>
      rw [increment_tracked hf]
      refine good_update_of h fun q hq _ => ?_
      have := h.2 q hq
      show 1 ≤ q.2.refCount + 1
      omega
  | none =>
      rw [increment_untracked hf]
      have hall := regFind_eq_none_iff.mp hf
      constructor
      · show (regKeys (_ :: s.registry)).Nodup
        rw [regKeys, List.map_cons, List.nodup_cons]
        refine ⟨fun hmem => ?_, h.1⟩
        rcases List.mem_map.mp hmem with ⟨p, hp, hpe⟩
        exact hall p hp hpe
      · intro p hp
        rcases List.mem_cons.mp hp with rfl | hp'
        · norm_num
        · exact h.2 p hp'

theorem good_decrement {s : RState} (h : GoodState s) (r : Nat) :
    GoodState (decrementRefcount s r) := by
  cases hf : regFind s.registry r with
  | none => rw [decrement_untracked hf]; exact h
  | some ref =>
      have href := goodState_mem_pos h hf
      by_cases hz : ref.refCount - 1 = 0
      · rw [decrement_tracked_zero hf hz]
        exact good_delete_update _ h
      · rw [decrement_tracked_pos hf hz]
        refine good_update_of h fun q hq hqr => ?_
        have hq2 : q.2 = ref := nodup_find_eq h.1 hf hq hqr
        show 1 ≤ q.2.refCount - 1
        rw [hq2]
        omega

theorem good_recycleGeneric {s : RState} (h : GoodState s) (r : Nat) :
    GoodState (recycleGeneric s r) := by
  cases hf : regFind s.registry r with
  | none => rw [recycle_untracked hf]; exact h
  | some ref =>
      by_cases hz : ref.refCount = 0
      · rw [recycle_tracked_zero hf hz]
        exact good_delete_update _ h
      · rw [recycle_tracked_pos hf hz]
        exact good_update_flag h fun q => rfl

theorem good_emit {s : RState} (h : GoodState s) (e : REvent) : GoodState (s.emit e) :=
  h

theorem good_recycleBitmap {s : RState} (h : GoodState s) (r : Nat) :
    GoodState (recycleBitmap s r) := by
  cases hf : regFind s.registry r with
  | none => rw [recycleBitmap_untracked hf]; exact good_emit h _
  | some ref => rw [recycleBitmap_tracked hf]; exact good_recycleGeneric h r

theorem good_destructorTracked {s : RState} {ref : ResourceReference}
    (h : GoodState s) (r : Nat) : GoodState (destructorTracked s r ref) := by
  by_cases hz : ref.refCount = 0
  · rw [destructorTracked_zero hz]
    exact good_delete_update _ h
  · rw [destructorTracked_pos hz]
    exact good_update_flag h fun q => rfl

theorem good_destructorBitmap {s : RState} (h : GoodState s) (r : Nat) :
    GoodState (destructorBitmap s r) := by
  cases hf : regFind s.registry r with
  | none =>
      rw [destructorBitmap_untracked hf]
      by_cases hc : s.hasCaches <;> simp [hc] <;> exact h
  | some ref => rw [destructorBitmap_tracked hf]; exact good_destructorTracked h r

theorem good_destructorMatrix {s : RState} (h : GoodState s) (r : Nat) :
    GoodState (destructorMatrix s r) := by
  cases hf : regFind s.registry r with
  | none => rw [destructorMatrix_untracked hf]; exact good_emit h _
  | some ref => rw [destructorMatrix_tracked hf]; exact good_destructorTracked h r

theorem good_destructorPaint {s : RState} (h : GoodState s) (r : Nat) :
    GoodState (destructorPaint s r) := by
  cases hf : regFind s.registry r with
  | none => rw [destructorPaint_untracked hf]; exact good_emit h _
  | some ref => rw [destructorPaint_tracked hf]; exact good_destructorTracked h r

theorem good_destructorShader {s : RState} (h : GoodState s) (r : Nat) :
    GoodState (destructorShader s r) := by
  cases hf : regFind s.registry r with
  | none =>
      rw [destructorShader_untracked hf]
      by_cases hc : s.hasCaches <;> simp [hc] <;> exact h
  | some ref => rw [destructorShader_tracked hf]; exact good_destructorTracked h r

theorem good_applyOp {s : RState} (h : GoodState s) (op : ROp) :
    GoodState (applyOp s op) := by
  cases op with
  | increment id rt => exact good_increment h id rt
  | decrement id => exact good_decrement h id
  | recycleB id => exact good_recycleBitmap h id
  | recycleG id => exact good_recycleGeneric h id
  | destroyB id => exact good_destructorBitmap h id
  | destroyM id => exact good_destructorMatrix h id
  | destroyP id => exact good_destructorPaint h id
  | destroyS id => exact good_destructorShader h id

theorem goodState_init (hc : Bool) : GoodState (initState hc) := by
  constructor
  · show (regKeys []).Nodup
    exact List.nodup_nil
  · intro p hp
    cases hp

theorem good_runOps {s : RState} (h : GoodState s) (ops : List ROp) :
    GoodState (runOps s ops) := by
  induction ops generalizing s with
  | nil => exact h
  | cons op t ih => exact ih (good_applyOp h op)

theorem goodState_reachable (hc : Bool) (ops : List ROp) :
    GoodState (runOps (initState hc) ops) :=
  good_runOps (goodState_init hc) ops

end HwuiModel

/-! ### Invariant lemmas for the Bounded Recency Cache -/

namespace HwuiModel

theorem evictToFit_split (entries : List (Nat × Nat)) (cw mw w : Nat)
    (h : cw = sumWeights entries) :
    entries = (evictToFit entries cw mw w).2.2 ++ (evictToFit entries cw mw w).1 ∧
      (evictToFit entries cw mw w).2.1 = sumWeights (evictToFit entries cw mw w).1 ∧
      ((evictToFit entries cw mw w).2.1 + w ≤ mw ∨ (evictToFit entries cw mw w).1 = []) := by
  induction entries generalizing cw with
  | nil =>
      refine ⟨rfl, ?_, Or.inr rfl⟩
      simpa [sumWeights] using h
  | cons e t ih =>
      by_cases hfit : cw + w ≤ mw
      · rw [evictToFit, if_pos hfit]
        exact ⟨rfl, h, Or.inl hfit⟩
      · have ht : cw - e.2 = sumWeights t := by
          rw [h, sumWeights, List.map_cons, List.sum_cons, sumWeights]
          omega
        obtain ⟨h1, h2, h3⟩ := ih (cw - e.2) ht
        rw [evictToFit, if_neg hfit]
        exact ⟨by rw [List.cons_append, ← h1], h2, h3⟩

theorem evictToFit_fits (entries : List (Nat × Nat)) (cw mw w : Nat)
    (h : cw = sumWeights entries) (hw : w ≤ mw) :
    (evictToFit entries cw mw w).2.1 + w ≤ mw := by
  obtain ⟨-, h2, h3⟩ := evictToFit_split entries cw mw w h
  rcases h3 with h3 | h3
  · exact h3
  · rw [h2, h3]
    simpa [sumWeights] using hw

theorem lookupWeight_erase_sum {entries : List (Nat × Nat)} {k w : Nat}
    (h : lookupWeight entries k = some w) :
    sumWeights entries = w + sumWeights (eraseFirst entries k) := by
  induction entries with
  | nil => cases h
  | cons e t ih =>
      by_cases he : e.1 = k
      · rw [lookupWeight, if_pos he] at h
        rw [eraseFirst, if_pos he, sumWeights, List.map_cons, List.sum_cons,
          Option.some_inj.mp h, sumWeights]
      · rw [lookupWeight, if_neg he] at h
        have := ih h
        rw [eraseFirst, if_neg he]
        simp only [sumWeights, List.map_cons, List.sum_cons] at this ⊢
        omega

theorem cacheInv_put {c : BRCache} (h : CacheInv c) (k w : Nat) :
    CacheInv (c.put k w).1 := by
  by_cases hw : c.maxWeight < w
  · rw [BRCache.put, if_pos hw]
    exact h
  · rw [BRCache.put, if_neg hw]
    obtain ⟨h1, h2, h3⟩ := evictToFit_split c.entries c.currentWeight c.maxWeight w h.1
    constructor
    · show _ + w = sumWeights (_ ++ [(k, w)])
      rw [sumWeights, List.map_append, List.sum_append, h2]
      simp [sumWeights]
    · exact evictToFit_fits c.entries c.currentWeight c.maxWeight w h.1 (le_of_not_lt hw)

theorem cacheInv_get {c : BRCache} (h : CacheInv c) (k : Nat) :
    CacheInv (c.get k).1 := by
  cases hl : lookupWeight c.entries k with
  | none => rw [BRCache.get, hl]; exact h
  | some w =>
      rw [BRCache.get, hl]
      have := lookupWeight_erase_sum hl
      constructor
      · show c.currentWeight - w = sumWeights (eraseFirst c.entries k)
        rw [h.1, this]
        omega
      · show c.currentWeight - w ≤ c.maxWeight
        have := h.2
        omega

theorem cacheInv_removeKey {c : BRCache} (h : CacheInv c) (k : Nat) :
    CacheInv (c.removeKey k) := by
  cases hl : lookupWeight c.entries k with
  | none => rw [BRCache.removeKey, hl]; exact h
  | some w =>
      rw [BRCache.removeKey, hl]
      have := lookupWeight_erase_sum hl
      constructor
      · show c.currentWeight - w = sumWeights (eraseFirst c.entries k)
        rw [h.1, this]
        omega
      · show c.currentWeight - w ≤ c.maxWeight
        have := h.2
        omega

theorem cacheInv_clear (c : BRCache) : CacheInv c.clear := by
  constructor
  · show (0 : Nat) = sumWeights []
    rfl
  · show (0 : Nat) ≤ c.maxWeight
    exact Nat.zero_le _

theorem cacheInv_setMaxWeight {c : BRCache} (h : CacheInv c) (n : Nat) :
    CacheInv (c.setMaxWeight n) := by
  obtain ⟨h1, h2, h3⟩ := evictToFit_split c.entries c.currentWeight n 0 h.1
  constructor
  · exact h2
  · have := evictToFit_fits c.entries c.currentWeight n 0 h.1 (Nat.zero_le n)
    simpa using this

theorem cacheInv_applyCOp {c : BRCache} (h : CacheInv c) (op : COp) :
    CacheInv (applyCOp c op) := by
  cases op with
  | put k w => exact cacheInv_put h k w
  | get k => exact cacheInv_get h k
  | removeKey k => exact cacheInv_removeKey h k
  | clear => exact cacheInv_clear c
  | setMaxWeight n => exact cacheInv_setMaxWeight h n

theorem cacheInv_init (mw : Nat) : CacheInv (initCache mw) :=
  ⟨rfl, Nat.zero_le mw⟩

theorem cacheInv_runCOps {c : BRCache} (h : CacheInv c) (ops : List COp) :
    CacheInv (runCOps c ops) := by
  induction ops generalizing c with
  | nil => exact h
  | cons op t ih => exact ih (cacheInv_applyCOp h op)

end HwuiModel

/-! ### Iterated decrements and idempotence of the one-way flags -/

namespace HwuiModel

theorem regUpdate_id_of {reg : Registry} {r : Nat}
    {f : ResourceReference → ResourceReference}
    (h : ∀ p ∈ reg, p.1 = r → f p.2 = p.2) : regUpdate reg r f = reg := by
  induction reg with
  | nil => rfl
  | cons p t ih =>
      rw [regUpdate, List.map_cons,
        show List.map _ t = regUpdate t r f from rfl,
        ih fun q hq hqr => h q (List.mem_cons_of_mem p hq) hqr]
      by_cases hp : p.1 = r
      · rw [if_pos hp, h p (List.mem_cons_self p t) hp]
      · rw [if_neg hp]

theorem decIter_release_once (r : Nat) :
    ∀ (n : Nat) (s : RState) (ref : ResourceReference), GoodState s →
      regFind s.registry r = some ref → ref.resourceType = ResourceType.kBitmap →
      ref.recycled = true → ref.refCount = (n : Int) + 1 →
      (decIter s r (n + 1)).events.count (REvent.setPixelsNull r) =
        s.events.count (REvent.setPixelsNull r) + 1 := by
  intro n
  induction n with
  | zero =>
      intro s ref hg h hb hr hc
      have hz : ref.refCount - 1 = 0 := by omega
      show (decIter (decrementRefcount s r) r 0).events.count _ = _
      rw [show decIter (decrementRefcount s r) r 0 = decrementRefcount s r from rfl,
        decrement_tracked_zero h hz, delete_count_setPixels, mk_events]
      simp [hr, hb]
  | succ m ih =>
      intro s ref hg h hb hr hc
      have hz : ref.refCount - 1 ≠ 0 := by
        have : ref.refCount = ((m : Int) + 1) + 1 := by push_cast at hc ⊢; omega
        omega
      show (decIter (decrementRefcount s r) r (m + 1)).events.count _ = _
      have hdec := decrement_tracked_pos h hz
      have hf' : regFind (regUpdate s.registry r
          (fun q => { q with refCount := q.refCount - 1 })) r =
          some { ref with refCount := ref.refCount - 1 } := by
        rw [regFind_update_self, h]
        rfl
      have hc' : ({ ref with refCount := ref.refCount - 1 }).refCount = (m : Int) + 1 := by
        show ref.refCount - 1 = (m : Int) + 1
        push_cast at hc
        omega
      have := ih (decrementRefcount s r) { ref with refCount := ref.refCount - 1 }
        (good_decrement hg r) (by rw [hdec, mk_registry]; exact hf') hb hr hc'
      rw [this, hdec, mk_events]

end HwuiModel

/-! ### Claim theorems -/

namespace HwuiModel

/-- C1, counterexample: the claim says that decrementing a tracked identity's
refCount to 0 with neither flag set does not remove the entry.  In the code,
after a single `incrementRefcount` the entry for identity 7 has
`refCount = 1` and both flags clear, yet one `decrementRefcount` removes it
from the registry (while performing no teardown). -/
theorem claim_C1_counterexample :
    (runOps (initState true) [ROp.increment 7 ResourceType.kBitmap]).find 7 =
        some ⟨ResourceType.kBitmap, 1, false, false⟩ ∧
    (runOps (initState true) [ROp.increment 7 ResourceType.kBitmap, ROp.decrement 7]).find 7 =
        none ∧
    (runOps (initState true) [ROp.increment 7 ResourceType.kBitmap, ROp.decrement 7]).events =
        [] := by
  decide

/-- C1 (amended): a tracked entry is removed by `decrementRefcount` exactly
when its refCount reaches 0, regardless of the recycled/destroyed flags;
such a removal with neither flag set performs no teardown; a tracked entry
with refCount 0 is removed by `recycle`/`destructor`; and once removed the
identity is untracked, so a further decrement changes nothing (removal
happens at most once). -/
theorem claim_C1_removal_iff (s : RState) (r : Nat) (ref : ResourceReference)
    (h : regFind s.registry r = some ref) :
    ((decrementRefcount s r).find r = none ↔ ref.refCount = 1) ∧
    (ref.recycled = false → ref.destroyed = false →
      (decrementRefcount s r).events = s.events) ∧
    (ref.refCount = 0 →
      (recycleGeneric s r).find r = none ∧ (destructorBitmap s r).find r = none) ∧
    ((decrementRefcount s r).find r = none →
      decrementRefcount (decrementRefcount s r) r = decrementRefcount s r) := by
  have hfind :
      ∀ f : ResourceReference → ResourceReference, ∀ ref' : ResourceReference,
        (deleteResourceReference
            { s with registry := regUpdate s.registry r f } r ref').find r = none := by
    intro f ref'
    show regFind (deleteResourceReference _ r ref').registry r = none
    rw [delete_registry]
    exact regFind_erase_self _ r
  refine ⟨?_, ?_, ?_, ?_⟩
  · by_cases hz : ref.refCount - 1 = 0
    · rw [decrement_tracked_zero h hz]
      exact iff_of_true (hfind _ _) (by omega)
    · rw [decrement_tracked_pos h hz]
      refine iff_of_false ?_ (by omega)
      rw [mk_find, regFind_update_self, h]
      exact Option.noConfusion
  · intro h1 h2
    by_cases hz : ref.refCount - 1 = 0
    · rw [decrement_tracked_zero h hz,
        delete_no_flags _ _ _
          (show ({ ref with refCount := ref.refCount - 1 }).recycled = false from h1)
          (show ({ ref with refCount := ref.refCount - 1 }).destroyed = false from h2)]
    · rw [decrement_tracked_pos h hz]
  · intro hz
    constructor
    · rw [recycle_tracked_zero h hz]
      exact hfind _ _
    · rw [destructorBitmap_tracked h, destructorTracked_zero hz]
      exact hfind _ _
  · intro hnone
    exact decrement_untracked hnone

/-- C1 amended-claim witness at a concrete input: for the singleton registry
obtained by one increment of identity 3, decrementing removes the entry (its
refCount is 1). -/
theorem claim_C1_removal_iff_witness :
    (decrementRefcount (runOps (initState true) [ROp.increment 3 ResourceType.kBitmap]) 3).find 3 =
        none ↔
      (⟨ResourceType.kBitmap, 1, false, false⟩ : ResourceReference).refCount = 1 :=
  (claim_C1_removal_iff (runOps (initState true) [ROp.increment 3 ResourceType.kBitmap]) 3
    ⟨ResourceType.kBitmap, 1, false, false⟩ (by decide)).1

/-- C2: the PixelImage scenario.  Two increments of identity 5 give
refCount 2; `destructor` sets the destroyed flag with no teardown and leaves
5 tracked; the first decrement leaves refCount 1 with no teardown; the
second brings it to 0 and runs teardown exactly once — one
`textureCache.remove`, one free of the backing memory, and removal from the
registry. -/
theorem claim_C2_scenario :
    (runOps (initState true)
        [ROp.increment 5 ResourceType.kBitmap, ROp.increment 5 ResourceType.kBitmap]).find 5 =
      some ⟨ResourceType.kBitmap, 2, false, false⟩ ∧
    (runOps (initState true)
        [ROp.increment 5 ResourceType.kBitmap, ROp.increment 5 ResourceType.kBitmap,
          ROp.destroyB 5]).find 5 = some ⟨ResourceType.kBitmap, 2, false, true⟩ ∧
    (runOps (initState true)
        [ROp.increment 5 ResourceType.kBitmap, ROp.increment 5 ResourceType.kBitmap,
          ROp.destroyB 5]).events = [] ∧
    (runOps (initState true)
        [ROp.increment 5 ResourceType.kBitmap, ROp.increment 5 ResourceType.kBitmap,
          ROp.destroyB 5, ROp.decrement 5]).find 5 =
      some ⟨ResourceType.kBitmap, 1, false, true⟩ ∧
    (runOps (initState true)
        [ROp.increment 5 ResourceType.kBitmap, ROp.increment 5 ResourceType.kBitmap,
          ROp.destroyB 5, ROp.decrement 5]).events = [] ∧
    (runOps (initState true)
        [ROp.increment 5 ResourceType.kBitmap, ROp.increment 5 ResourceType.kBitmap,
          ROp.destroyB 5, ROp.decrement 5, ROp.decrement 5]).find 5 = none ∧
    (runOps (initState true)
        [ROp.increment 5 ResourceType.kBitmap, ROp.increment 5 ResourceType.kBitmap,
          ROp.destroyB 5, ROp.decrement 5, ROp.decrement 5]).events =
      [REvent.texRemove 5, REvent.freeResource 5] ∧
    (runOps (initState true)
        [ROp.increment 5 ResourceType.kBitmap, ROp.increment 5 ResourceType.kBitmap,
          ROp.destroyB 5, ROp.decrement 5, ROp.decrement 5]).events.count
      (REvent.texRemove 5) = 1 := by
  decide

/-- C3, counterexample: the claim says recycling an untracked identity is a
no-op on both the registry state and the resource.  In the code the
`recycle(SkBitmap*)` overload, on an untracked bitmap, itself releases the
pixel storage (`setPixels(NULL, NULL)`), so the operation is not a no-op on
the resource. -/
theorem claim_C3_counterexample :
    (initState true).find 9 = none ∧
    recycleBitmap (initState true) 9 ≠ initState true ∧
    (recycleBitmap (initState true) 9).events = [REvent.setPixelsNull 9] ∧
    (recycleBitmap (initState true) 9).registry = [] := by
  decide

/-- C3 (amended): for an untracked identity the generic `recycle(void*)` is a
complete no-op, while the PixelImage overload `recycle(SkBitmap*)` leaves the
registry unchanged but itself releases the bitmap's pixel storage; for a
tracked identity recycle sets the recycled flag (and touches nothing else),
and if refCount is 0 it runs cleanup immediately, removing the entry. -/
theorem claim_C3_recycle (s : RState) (r : Nat) :
    (regFind s.registry r = none →
      recycleGeneric s r = s ∧
      recycleBitmap s r = { s with events := s.events ++ [REvent.setPixelsNull r] }) ∧
    (∀ ref, regFind s.registry r = some ref →
      (ref.refCount ≠ 0 →
        (recycleGeneric s r).events = s.events ∧
        (recycleGeneric s r).find r = some { ref with recycled := true } ∧
        recycleBitmap s r = recycleGeneric s r) ∧
      (ref.refCount = 0 → (recycleGeneric s r).find r = none)) := by
  constructor
  · intro h
    exact ⟨recycle_untracked h, recycleBitmap_untracked h⟩
  · intro ref h
    constructor
    · intro hnz
      refine ⟨?_, ?_, recycleBitmap_tracked h⟩
      · rw [recycle_tracked_pos h hnz]
      · rw [recycle_tracked_pos h hnz, mk_find, regFind_update_self, h]
        rfl
    · intro hz
      rw [recycle_tracked_zero h hz]
      show regFind (deleteResourceReference _ r _).registry r = none
      rw [delete_registry]
      exact regFind_erase_self _ r

/-- C3 amended-claim witness at a concrete input: recycling the untracked
identity 4 leaves the (empty) registry as is and only clears pixels in the
bitmap overload. -/
theorem claim_C3_recycle_witness :
    recycleGeneric (initState true) 4 = initState true ∧
    recycleBitmap (initState true) 4 =
      { initState true with
          events := (initState true).events ++ [REvent.setPixelsNull 4] } :=
  (claim_C3_recycle (initState true) 4).1 (by decide)

/-- C4: destroying an untracked identity frees its backing memory at once
and, for the kinds with GPU-side derivatives (bitmap via the texture cache,
shader via the gradient cache, but not matrix or paint), also drops the
derivative; destroying a tracked identity with nonzero refCount only sets
the destroyed flag (identically for all four kinds) and defers all teardown,
while at refCount 0 it removes the entry immediately. -/
theorem claim_C4_destroy (s : RState) (r : Nat) :
    (regFind s.registry r = none → s.hasCaches = true →
      destructorBitmap s r =
        { s with events := s.events ++ [REvent.texRemove r, REvent.freeResource r] } ∧
      destructorMatrix s r = { s with events := s.events ++ [REvent.freeResource r] } ∧
      destructorPaint s r = { s with events := s.events ++ [REvent.freeResource r] } ∧
      destructorShader s r =
        { s with events := s.events ++ [REvent.gradRemove r, REvent.freeResource r] }) ∧
    (∀ ref, regFind s.registry r = some ref →
      (ref.refCount ≠ 0 →
        (destructorBitmap s r).events = s.events ∧
        (destructorBitmap s r).find r = some { ref with destroyed := true } ∧
        destructorMatrix s r = destructorBitmap s r ∧
        destructorPaint s r = destructorBitmap s r ∧
        destructorShader s r = destructorBitmap s r) ∧
      (ref.refCount = 0 → (destructorBitmap s r).find r = none)) := by
  constructor
  · intro h hc
    refine ⟨?_, ?_, ?_, ?_⟩
    · rw [destructorBitmap_untracked h]
      simp [RState.emit, hc, List.append_assoc]
    · rw [destructorMatrix_untracked h]
      simp [RState.emit]
    · rw [destructorPaint_untracked h]
      simp [RState.emit]
    · rw [destructorShader_untracked h]
      simp [RState.emit, hc, List.append_assoc]
  · intro ref h
    constructor
    · intro hnz
      refine ⟨?_, ?_, ?_, ?_, ?_⟩
      · rw [destructorBitmap_tracked h, destructorTracked_pos hnz]
      · rw [destructorBitmap_tracked h, destructorTracked_pos hnz, mk_find,
          regFind_update_self, h]
        rfl
      · rw [destructorMatrix_tracked h, destructorBitmap_tracked h]
      · rw [destructorPaint_tracked h, destructorBitmap_tracked h]
      · rw [destructorShader_tracked h, destructorBitmap_tracked h]
    · intro hz
      rw [destructorBitmap_tracked h, destructorTracked_zero hz]
      show regFind (deleteResourceReference _ r _).registry r = none
      rw [delete_registry]
      exact regFind_erase_self _ r

/-- C4 witness at a concrete input: destroying the untracked identity 2 in a
fresh cache with live collaborator caches fires exactly the expected
teardown events for each kind. -/
theorem claim_C4_destroy_witness :
    destructorBitmap (initState true) 2 =
      { initState true with
          events := (initState true).events ++ [REvent.texRemove 2, REvent.freeResource 2] } ∧
    destructorMatrix (initState true) 2 =
      { initState true with
          events := (initState true).events ++ [REvent.freeResource 2] } ∧
    destructorPaint (initState true) 2 =
      { initState true with
          events := (initState true).events ++ [REvent.freeResource 2] } ∧
    destructorShader (initState true) 2 =
      { initState true with
          events := (initState true).events ++ [REvent.gradRemove 2, REvent.freeResource 2] } :=
  (claim_C4_destroy (initState true) 2).1 (by decide) (by decide)

/-- C6: refCount is never pushed below zero — decrementing an untracked
identity leaves the whole state unchanged, and in every reachable registry
state every tracked record has a non-negative refCount. -/
theorem claim_C6_no_negative (s : RState) (r : Nat) :
    (regFind s.registry r = none → decrementRefcount s r = s) ∧
    (∀ (hc : Bool) (ops : List ROp),
      ∀ p ∈ (runOps (initState hc) ops).registry, 0 ≤ p.2.refCount) := by
  constructor
  · exact decrement_untracked
  · intro hc ops p hp
    have := (goodState_reachable hc ops).2 p hp
    omega

/-- C6 witness at a concrete input: decrementing untracked identity 0 in a
fresh state is a no-op, and the record tracked after one increment of
identity 3 has non-negative refCount. -/
theorem claim_C6_no_negative_witness :
    decrementRefcount (initState true) 0 = initState true ∧
    0 ≤ ((3, (⟨ResourceType.kBitmap, 1, false, false⟩ : ResourceReference)) :
        Nat × ResourceReference).2.refCount :=
  ⟨(claim_C6_no_negative (initState true) 0).1 (by decide),
    (claim_C6_no_negative (initState true) 0).2 true [ROp.increment 3 ResourceType.kBitmap]
      (3, ⟨ResourceType.kBitmap, 1, false, false⟩) (by decide)⟩

/-- C10: incrementing an already tracked identity changes only that entry's
refCount (by exactly +1, keeping its kind and both flags), leaves every
other entry and the event trace untouched, and creates no duplicate entry
(the key list is unchanged). -/
theorem claim_C10_increment_frame (s : RState) (r : Nat) (ref : ResourceReference)
    (rt : ResourceType) (h : regFind s.registry r = some ref) :
    (incrementRefcount s r rt).find r = some { ref with refCount := ref.refCount + 1 } ∧
    (∀ r', r' ≠ r → (incrementRefcount s r rt).find r' = s.find r') ∧
    (incrementRefcount s r rt).events = s.events ∧
    (incrementRefcount s r rt).hasCaches = s.hasCaches ∧
    regKeys (incrementRefcount s r rt).registry = regKeys s.registry := by
  rw [increment_tracked h rt]
  refine ⟨?_, ?_, rfl, rfl, ?_⟩
  · rw [mk_find, regFind_update_self, h]
    rfl
  · intro r' hr'
    rw [mk_find, regFind_update_ne s.registry r r' _ hr']
    rfl
  · rw [mk_registry, regKeys_update]

/-- C10 witness at a concrete input: incrementing the already tracked
identity 3 (count 1) yields count 2 with flags and kind unchanged. -/
theorem claim_C10_increment_frame_witness :
    (incrementRefcount (runOps (initState true) [ROp.increment 3 ResourceType.kBitmap]) 3
        ResourceType.kBitmap).find 3 =
      some { (⟨ResourceType.kBitmap, 1, false, false⟩ : ResourceReference) with
               refCount := (⟨ResourceType.kBitmap, 1, false, false⟩ : ResourceReference).refCount + 1 } :=
  (claim_C10_increment_frame (runOps (initState true) [ROp.increment 3 ResourceType.kBitmap]) 3
    ⟨ResourceType.kBitmap, 1, false, false⟩ ResourceType.kBitmap (by decide)).1

end HwuiModel

namespace HwuiModel

/-- C5: for a tracked PixelImage identity with positive refCount, a second
`recycle` (and likewise a second `destructor`) before the count reaches 0
changes nothing — the flags are monotone and idempotent — and recycling
twice followed by decrementing the count down to 0 emits `setPixels(NULL)`
exactly once. -/
theorem claim_C5_recycle_exactly_once (s : RState) (r : Nat) (ref : ResourceReference)
    (n : Nat) (hg : GoodState s) (h : regFind s.registry r = some ref)
    (hb : ref.resourceType = ResourceType.kBitmap)
    (hrc : ref.refCount = (n : Int) + 1) :
    recycleGeneric (recycleGeneric s r) r = recycleGeneric s r ∧
    destructorBitmap (destructorBitmap s r) r = destructorBitmap s r ∧
    (decIter (recycleGeneric (recycleGeneric s r) r) r (n + 1)).events.count
        (REvent.setPixelsNull r) =
      s.events.count (REvent.setPixelsNull r) + 1 := by
  have hnz : ref.refCount ≠ 0 := by omega
  have h1 : recycleGeneric s r =
      { s with registry := regUpdate s.registry r (fun q => { q with recycled := true }) } :=
    recycle_tracked_pos h hnz
  have hf1 : regFind (recycleGeneric s r).registry r = some { ref with recycled := true } := by
    rw [h1, mk_registry, regFind_update_self, h]
    rfl
  have hrec2 : recycleGeneric (recycleGeneric s r) r = recycleGeneric s r := by
    rw [recycle_tracked_pos hf1 hnz]
    have hid : regUpdate (recycleGeneric s r).registry r
        (fun q => { q with recycled := true }) = (recycleGeneric s r).registry := by
      apply regUpdate_id_of
      intro p hp hpr
      rw [h1, mk_registry] at hp
      rcases mem_regUpdate hp with ⟨-, hpne⟩ | ⟨q, hq, hqr, rfl⟩
      · exact absurd hpr hpne
      · rfl
    rw [hid]
  have hd1 : destructorBitmap s r =
      { s with registry := regUpdate s.registry r (fun q => { q with destroyed := true }) } := by
    rw [destructorBitmap_tracked h, destructorTracked_pos hnz]
  have hdf1 : regFind (destructorBitmap s r).registry r =
      some { ref with destroyed := true } := by
    rw [hd1, mk_registry, regFind_update_self, h]
    rfl
  have hdes2 : destructorBitmap (destructorBitmap s r) r = destructorBitmap s r := by
    rw [destructorBitmap_tracked hdf1,
      destructorTracked_pos
        (show ({ ref with destroyed := true } : ResourceReference).refCount ≠ (0 : Int)
          from hnz)]
    have hid : regUpdate (destructorBitmap s r).registry r
        (fun q => { q with destroyed := true }) = (destructorBitmap s r).registry := by
      apply regUpdate_id_of
      intro p hp hpr
      rw [hd1, mk_registry] at hp
      rcases mem_regUpdate hp with ⟨-, hpne⟩ | ⟨q, hq, hqr, rfl⟩
      · exact absurd hpr hpne
      · rfl
    rw [hid]
  refine ⟨hrec2, hdes2, ?_⟩
  rw [hrec2]
  have := decIter_release_once r n (recycleGeneric s r) { ref with recycled := true }
    (good_recycleGeneric hg r) hf1 hb rfl hrc
  rw [this, h1, mk_events]

/-- C5 witness at a concrete input: identity 3 tracked as a bitmap with
refCount 1; recycling twice and decrementing once clears the pixels exactly
once. -/
theorem claim_C5_recycle_exactly_once_witness :
    (decIter
        (recycleGeneric
          (recycleGeneric (runOps (initState true) [ROp.increment 3 ResourceType.kBitmap]) 3) 3)
        3 1).events.count (REvent.setPixelsNull 3) =
      (runOps (initState true) [ROp.increment 3 ResourceType.kBitmap]).events.count
        (REvent.setPixelsNull 3) + 1 :=
  (claim_C5_recycle_exactly_once (runOps (initState true) [ROp.increment 3 ResourceType.kBitmap])
    3 ⟨ResourceType.kBitmap, 1, false, false⟩ 0 (by decide) (by decide) rfl (by decide)).2.2

/-- C9: in every reachable registry state, every tracked entry has
refCount ≥ 1; consequently, on a tracked identity the `refCount == 0`
cleanup branches of recycle and of all four destructors are never taken —
the operations only set their flag, emit no event, and leave the entry
present. -/
theorem claim_C9_tracked_positive (hc : Bool) (ops : List ROp) :
    (∀ p ∈ (runOps (initState hc) ops).registry, 1 ≤ p.2.refCount) ∧
    (∀ (r : Nat) (ref : ResourceReference),
      regFind (runOps (initState hc) ops).registry r = some ref →
      (recycleGeneric (runOps (initState hc) ops) r).events =
          (runOps (initState hc) ops).events ∧
      (recycleGeneric (runOps (initState hc) ops) r).find r =
          some { ref with recycled := true } ∧
      (destructorBitmap (runOps (initState hc) ops) r).events =
          (runOps (initState hc) ops).events ∧
      (destructorBitmap (runOps (initState hc) ops) r).find r =
          some { ref with destroyed := true } ∧
      destructorMatrix (runOps (initState hc) ops) r =
          destructorBitmap (runOps (initState hc) ops) r ∧
      destructorPaint (runOps (initState hc) ops) r =
          destructorBitmap (runOps (initState hc) ops) r ∧
      destructorShader (runOps (initState hc) ops) r =
          destructorBitmap (runOps (initState hc) ops) r) := by
  have hg := goodState_reachable hc ops
  refine ⟨hg.2, ?_⟩
  intro r ref h
  have hpos := goodState_mem_pos hg h
  have hnz : ref.refCount ≠ 0 := by omega
  refine ⟨?_, ?_, ?_, ?_, ?_, ?_, ?_⟩
  · rw [recycle_tracked_pos h hnz]
  · rw [recycle_tracked_pos h hnz, mk_find, regFind_update_self, h]
    rfl
  · rw [destructorBitmap_tracked h, destructorTracked_pos hnz]
  · rw [destructorBitmap_tracked h, destructorTracked_pos hnz, mk_find,
      regFind_update_self, h]
    rfl
  · rw [destructorMatrix_tracked h, destructorBitmap_tracked h]
  · rw [destructorPaint_tracked h, destructorBitmap_tracked h]
  · rw [destructorShader_tracked h, destructorBitmap_tracked h]

/-- C9 witness at a concrete input: after one increment of identity 3 the
tracked record has refCount 1, and recycling it emits nothing and keeps it
tracked with the flag set. -/
theorem claim_C9_tracked_positive_witness :
    (recycleGeneric (runOps (initState true) [ROp.increment 3 ResourceType.kBitmap]) 3).events =
        (runOps (initState true) [ROp.increment 3 ResourceType.kBitmap]).events ∧
    (recycleGeneric (runOps (initState true) [ROp.increment 3 ResourceType.kBitmap]) 3).find 3 =
        some { (⟨ResourceType.kBitmap, 1, false, false⟩ : ResourceReference) with
                 recycled := true } :=
  ⟨((claim_C9_tracked_positive true [ROp.increment 3 ResourceType.kBitmap]).2 3
      ⟨ResourceType.kBitmap, 1, false, false⟩ (by decide)).1,
    ((claim_C9_tracked_positive true [ROp.increment 3 ResourceType.kBitmap]).2 3
      ⟨ResourceType.kBitmap, 1, false, false⟩ (by decide)).2.1⟩

/-- C7: `put` rejects, without any mutation, a value whose weight alone
exceeds the budget; otherwise it accepts: it splits off a least-recently-used
prefix of the entries as evictions, invokes the removal hook exactly on
those, appends the new entry as most-recently-used, and the resulting weight
is the weight of the survivors plus the new entry's and fits the budget. -/
theorem claim_C7_put_spec (c : BRCache) (k w : Nat) (h : CacheInv c) :
    (c.maxWeight < w → c.put k w = (c, false)) ∧
    (w ≤ c.maxWeight →
      (c.put k w).2 = true ∧
      ∃ evicted kept,
        c.entries = evicted ++ kept ∧
        (c.put k w).1.entries = kept ++ [(k, w)] ∧
        (c.put k w).1.hooked = c.hooked ++ evicted ∧
        (c.put k w).1.currentWeight = sumWeights kept + w ∧
        (c.put k w).1.currentWeight ≤ c.maxWeight ∧
        (c.put k w).1.maxWeight = c.maxWeight) := by
  constructor
  · intro hw
    rw [BRCache.put, if_pos hw]
  · intro hw
    have hnl : ¬c.maxWeight < w := not_lt.mpr hw
    obtain ⟨h1, h2, -⟩ := evictToFit_split c.entries c.currentWeight c.maxWeight w h.1
    have hfit := evictToFit_fits c.entries c.currentWeight c.maxWeight w h.1 hw
    rw [BRCache.put, if_neg hnl]
    refine ⟨rfl,
      (evictToFit c.entries c.currentWeight c.maxWeight w).2.2,
      (evictToFit c.entries c.currentWeight c.maxWeight w).1,
      h1, rfl, rfl, ?_, hfit, rfl⟩
    show (evictToFit c.entries c.currentWeight c.maxWeight w).2.1 + w = _
    rw [h2]

/-- C7 witness at a concrete input: putting a weight-4 entry into an empty
budget-10 cache is accepted. -/
theorem claim_C7_put_spec_witness :
    ((initCache 10).put 1 4).2 = true :=
  (((claim_C7_put_spec (initCache 10) 1 4) (by decide)).2 (by decide)).1

/-- C8: after any sequence of put/get/remove/clear/setMaxWeight operations
on the Bounded Recency Cache, the recorded weight equals the sum of the
weights of the entries in the cache and does not exceed the budget. -/
theorem claim_C8_weight_invariant (mw : Nat) (ops : List COp) :
    (runCOps (initCache mw) ops).currentWeight =
        sumWeights (runCOps (initCache mw) ops).entries ∧
    (runCOps (initCache mw) ops).currentWeight ≤ (runCOps (initCache mw) ops).maxWeight :=
  cacheInv_runCOps (cacheInv_init mw) ops

end HwuiModel
